import Mathlib

/-!
Verification of the paradex-market-making-bot core against its specification.

The definitions below are shallow embeddings of the Python source:
  * `SimpleLOB`, `SimpleLOB.get_mid`, `SimpleLOB.get_vamp`  from `src/core/trader.py`
  * the WebSocket fill handler `ws_on_fill`                 from `Trader._setup_websocket_fills.on_fill`
  * `on_paradex_fill`                                       from `src/core/hedge/orchestrator.py` (`OneClickHedger`)
  * `hedge_net_position`                                    from `Trader._hedge_net_position`
  * `update_quotes_dynamic`                                 from `Trader._update_quotes_dynamic`
  * `poll_for_fills`                                        from `Trader._poll_for_fills`
  * `compute_quotes` and its helpers                        from `src/strategies/vamp_mm.py` (`VampMM.compute_quotes`)

Python floats are modelled as `ℝ` where the transcendental `np.tanh` is
involved and as `ℚ` elsewhere, so that the state-machine models stay
executable.  Asynchronous handlers are modelled as pure state-transition
functions executed atomically, one message at a time.
-/

namespace MMBot

/-! ### Order book (`SimpleLOB` in `src/core/trader.py`) -/

/-- A price book: `bids` and `asks` are lists of `[price, size]` levels,
mirroring the two lists held by `SimpleLOB.__init__`. -/
structure SimpleLOB where
  bids : List (ℝ × ℝ)
  asks : List (ℝ × ℝ)

/-- Mirror of `SimpleLOB.is_empty`: true when both sides are empty
(`len(self.bids) == 0 and len(self.asks) == 0`). -/
def SimpleLOB.is_empty (l : SimpleLOB) : Bool :=
  l.bids.isEmpty && l.asks.isEmpty

/-- Mirror of `SimpleLOB.best_bid`: `self.bids[0] if self.bids else None`. -/
def SimpleLOB.best_bid (l : SimpleLOB) : Option (ℝ × ℝ) :=
  l.bids.head?

/-- Mirror of `SimpleLOB.best_ask`: `self.asks[0] if self.asks else None`. -/
def SimpleLOB.best_ask (l : SimpleLOB) : Option (ℝ × ℝ) :=
  l.asks.head?

/-- Mirror of `SimpleLOB.get_mid`: `None` when the book is empty or either side lacks a
best level, otherwise the average of the two best prices. -/
noncomputable def SimpleLOB.get_mid (l : SimpleLOB) : Option ℝ :=
  if l.is_empty then none
  else
    match l.best_bid, l.best_ask with
    | some b, some a => some ((b.1 + a.1) / 2)
    | _, _ => none

/-- Mirror of `SimpleLOB.get_vamp`: the source's "simplified implementation" that
ignores `reference_notional` and returns the mid price. -/
noncomputable def SimpleLOB.get_vamp (l : SimpleLOB) (_reference_notional : ℝ) : Option ℝ :=
  if l.is_empty then none
  else l.get_mid

/-! ### WebSocket fill handler (`Trader._setup_websocket_fills.on_fill`) -/

/-- A fill message as delivered by the fills WebSocket: the fields the
handler extracts via `fill_data.get(...)`.  `order_id` is `none` for a
missing/null field; the empty string models a falsy order id. -/
structure FillMsg where
  order_id : Option String
  side : String
  filled : ℚ
  price : ℚ
deriving DecidableEq

/-- The trader-side state touched by the fill handler: the set of order ids
the bot has placed (`self._our_order_ids`), the set of already-hedged fills
(`self._processed_fills`) and the net Paradex position. -/
structure FillState where
  our_order_ids : List String
  processed_fills : List String
  paradex_position : ℚ
deriving DecidableEq

/-- One invocation of the `on_fill` callback.  Returns the new state and the
list of fill events it processed in this step (each processed event also
triggers exactly one `_hedge_net_position` call in the source, so the second
component simultaneously counts hedge triggers). -/
def ws_on_fill (s : FillState) (m : FillMsg) : FillState × List FillMsg :=
  match m.order_id with
  | none => (s, [])
  | some oid =>
    if oid ≠ "" ∧ oid ∈ s.our_order_ids ∧ 0 < m.filled then
      if oid ∈ s.processed_fills then (s, [])
      else
        let pos :=
          if m.side = "BUY" then s.paradex_position + m.filled
          else s.paradex_position - m.filled
        ({ s with paradex_position := pos, processed_fills := oid :: s.processed_fills }, [m])
    else (s, [])

/-- Delivering a stream of fill messages to the handler, one at a time,
collecting every processed fill event in order. -/
def ws_run (s : FillState) : List FillMsg → FillState × List FillMsg
  | [] => (s, [])
  | m :: ms =>
    let step := ws_on_fill s m
    let rest := ws_run step.1 ms
    (rest.1, step.2 ++ rest.2)

/-- The predicate picking out fill events for a given (orderId, increment) pair. -/
def matches_fill (oid : String) (incr : ℚ) (m : FillMsg) : Bool :=
  m.order_id == some oid && m.filled == incr

/-! ### Hedge coordinator (`OneClickHedger` in `src/core/hedge/orchestrator.py`) -/

/-- The keyword arguments of `HedgeExchange.place_hedge`: the hedge order
as it is handed to the hedge venue. -/
structure HedgeOrder where
  side : String
  size : ℚ
  symbol : String
  price : Option ℚ
  tif : String
  client_id : Option String
deriving DecidableEq

/-- The dictionary returned by a `place_hedge` implementation; only the
`status` field matters here (`"accepted"`, `"rejected"` or `"error"`). -/
structure VenueResult where
  status : String
deriving DecidableEq

/-- The possible return values of `OneClickHedger.on_paradex_fill`: the two
early-exit dictionaries, or whatever the venue call returned. -/
inductive OnFillResult where
  | rateLimited
  | symbolMapMissing
  | venue (r : VenueResult)
deriving DecidableEq

/-- The mutable attributes of `OneClickHedger`.  `min_hedge_interval` is set
to `1.0` in `__init__` and never written again. -/
structure HedgerState where
  symbol_map : List (String × String)
  mode : String
  slippage_bps : ℚ
  last_hedge_time : ℚ
  min_hedge_interval : ℚ
deriving DecidableEq

/-- Python `str.upper()`: uppercase every character (the sides handled here
are plain ASCII). -/
def pyUpper (s : String) : String :=
  ⟨s.data.map Char.toUpper⟩

/-- Mirror of `OneClickHedger.on_paradex_fill`.  `place_hedge` stands for the injected
hedge venue; `Except.error` models a raised exception (propagated to the
caller, after `_last_hedge_time` has already been advanced).  The third
component records the order handed to `place_hedge`, i.e. the submission to
the hedge venue, when one happened.  A `"limit"`-mode call with `price =
none` raises a `TypeError` in the source before the rate-limit timestamp is
touched, which the `Except.error` in the inner match mirrors. -/
def on_paradex_fill (place_hedge : HedgeOrder → Except Unit VenueResult)
    (s : HedgerState) (now : ℚ) (market side : String) (size : ℚ)
    (price : Option ℚ) (client_id : Option String) :
    HedgerState × Except Unit OnFillResult × Option HedgeOrder :=
  if now - s.last_hedge_time < s.min_hedge_interval then
    (s, Except.ok OnFillResult.rateLimited, none)
  else
    let opp_side := if pyUpper side = "BUY" then "SELL" else "BUY"
    match s.symbol_map.lookup market with
    | none => (s, Except.ok OnFillResult.symbolMapMissing, none)
    | some hedge_symbol =>
      let hedge_price? : Except Unit (Option ℚ) :=
        if s.mode = "limit" then
          match price with
          | some p =>
            Except.ok (some (if opp_side = "SELL" then p * (1 - s.slippage_bps / 10000)
                             else p * (1 + s.slippage_bps / 10000)))
          | none => Except.error ()
        else Except.ok none
      match hedge_price? with
      | Except.error e => (s, Except.error e, none)
      | Except.ok hedge_price =>
        let s' := { s with last_hedge_time := now }
        let order : HedgeOrder :=
          ⟨opp_side, size, hedge_symbol, hedge_price, "IOC", client_id⟩
        match place_hedge order with
        | Except.ok r => (s', Except.ok (OnFillResult.venue r), some order)
        | Except.error e => (s', Except.error e, some order)

/-! ### Trader-side hedge bookkeeping (`Trader._hedge_net_position`) -/

/-- Python `int()` on a rational: truncation toward zero. -/
def pyInt (q : ℚ) : ℤ :=
  if 0 ≤ q then ⌊q⌋ else -⌊-q⌋

/-- The client id the trader attaches to a hedge request:
`f"hedge_net_{int(time.time())}"`. -/
def hedge_client_id (now : ℚ) : String :=
  "hedge_net_" ++ toString (pyInt now)

/-- The two locally tracked net positions (`self._paradex_position`,
`self._hyperliquid_position`). -/
structure PosState where
  paradex_position : ℚ
  hyperliquid_position : ℚ
deriving DecidableEq

/-- Mirror of `Trader._hedge_net_position` (with a hedger attached).  Output:
the hedger state, the trader position state, the outcome of the hedger call
if one was made (`Except.error` = the call raised, which lands in the
method's `except` block), and the order submitted to the hedge venue if any.
The source wraps the `on_paradex_fill` call and the position update in a
`try`, so a raised exception leaves `_hyperliquid_position` untouched,
while any returned dictionary - whatever its status - is followed by the
position update. -/
def hedge_net_position (place_hedge : HedgeOrder → Except Unit VenueResult)
    (hs : HedgerState) (t : PosState) (now : ℚ) (market : String) :
    HedgerState × PosState × Option (Except Unit OnFillResult) × Option HedgeOrder :=
  let required_hedge := -t.paradex_position
  let current_hedge := t.hyperliquid_position
  let hedge_difference := required_hedge - current_hedge
  if |hedge_difference| < 1 / 1000 then (hs, t, none, none)
  else if |t.paradex_position| < 1 / 1000 then
    (hs, { t with hyperliquid_position := 0 }, none, none)
  else
    let hedge_side := if 0 < hedge_difference then "BUY" else "SELL"
    let hedge_size := if 0 < hedge_difference then hedge_difference else |hedge_difference|
    let paradex_side := if hedge_side = "SELL" then "BUY" else "SELL"
    match on_paradex_fill place_hedge hs now market paradex_side hedge_size none
        (some (hedge_client_id now)) with
    | (hs', Except.ok r, sub) =>
      let newHyper :=
        if hedge_side = "BUY" then t.hyperliquid_position + hedge_size
        else t.hyperliquid_position - hedge_size
      (hs', { t with hyperliquid_position := newHyper }, some (Except.ok r), sub)
    | (hs', Except.error e, sub) => (hs', t, some (Except.error e), sub)

/-! ### Quote reconciliation (`Trader._update_quotes_dynamic`) -/

/-- A live order as parsed from the venue response; timestamps are in
milliseconds as delivered in `created_at` / `updated_at`. -/
structure LiveOrderRec where
  id : String
  side : String
  price : ℚ
  size : ℚ
  created_at : Option ℚ
  updated_at : Option ℚ
deriving DecidableEq

/-- The order timestamp in seconds: `created_at` preferred, `updated_at` as
fallback, both divided by 1000, `none` if neither parses. -/
def order_time (o : LiveOrderRec) : Option ℚ :=
  match o.created_at with
  | some ts => some (ts / 1000)
  | none =>
    match o.updated_at with
    | some ts => some (ts / 1000)
    | none => none

/-- The cancellation test of `_update_quotes_dynamic`, from
`if order_time and (current_time - order_time) > 60`: an order is cancelled
iff its timestamp parses, is truthy - a parsed time of `0.0` is falsy in
Python, so such an order is never cancelled - and lies more than 60 seconds
in the past. -/
def is_stale (now : ℚ) (o : LiveOrderRec) : Bool :=
  match order_time o with
  | some t => decide (t ≠ 0) && decide (60 < now - t)
  | none => false

/-- A desired order as produced by the strategy (`side`/`price`/`size` dict). -/
structure DesiredOrder where
  side : String
  price : ℚ
  size : ℚ
deriving DecidableEq

/-- Mirror of `Trader._update_quotes_dynamic` as a pure action plan: given the live
orders fetched at the start of the pass, the current time and the desired
buy/sell orders, return the ids cancelled and the orders placed.  The
second order fetch of the source (after the cancels) is modelled as the
first fetch minus the cancelled orders, i.e. cancellations take effect and
no external change happens between the two fetches. -/
def update_quotes_dynamic (existing : List LiveOrderRec) (now : ℚ)
    (buy_orders sell_orders : List DesiredOrder) :
    List String × List DesiredOrder :=
  let orders_to_cancel := (existing.filter (fun o => is_stale now o)).map (fun o => o.id)
  let remaining := existing.filter (fun o => !is_stale now o)
  let existing_buy := (remaining.filter (fun o => o.side == "BUY")).length
  let existing_sell := (remaining.filter (fun o => o.side == "SELL")).length
  let buy_orders' := if 0 < existing_buy then [] else buy_orders
  let sell_orders' := if 0 < existing_sell then [] else sell_orders
  (orders_to_cancel, buy_orders' ++ sell_orders')

/-! ### Polling fallback (`Trader._poll_for_fills`) -/

/-- The fill-detection part of `_poll_for_fills`: diff the tracked order ids
against the currently open ones; ids that disappeared are treated as filled
and removed from the tracked set, and if any order disappeared the Paradex
position is bumped by the hard-coded `0.01` of the source.  Returns
(filled ids, remaining tracked ids, new position). -/
def poll_for_fills (our_ids : List String) (current_ids : List String) (pos : ℚ) :
    List String × List String × ℚ :=
  if our_ids = [] then ([], our_ids, pos)
  else
    let filled := our_ids.filter (fun oid => !current_ids.contains oid)
    let remaining := our_ids.filter (fun oid => current_ids.contains oid)
    let pos' := if filled ≠ [] then pos + 1 / 100 else pos
    (filled, remaining, pos')

/-! ### Quote engine (`VampMM.compute_quotes` in `src/strategies/vamp_mm.py`) -/

/-- Python's `round` to the nearest integer with ties to even (banker's
rounding), on an exact rational/real value. -/
noncomputable def pyRound (x : ℝ) : ℤ :=
  if Int.fract x = 1 / 2 then (if Even ⌊x⌋ then ⌊x⌋ else ⌊x⌋ + 1)
  else ⌊x + 1 / 2⌋

/-- Python's `round(x, ndigits)`. -/
noncomputable def roundTo (ndigits : ℕ) (x : ℝ) : ℝ :=
  (pyRound (x * 10 ^ ndigits) : ℝ) / 10 ^ ndigits

/-- The validity test `compute_quotes` applies to a candidate reference
price: `None`, NaN (absent from `ℝ`) and non-positive prices are rejected. -/
noncomputable def valid_price (o : Option ℝ) : Option ℝ :=
  match o with
  | none => none
  | some v => if v ≤ 0 then none else some v

/-- Step 1 of `compute_quotes`: `lob_data.get_vamp(reference_notional)`,
falling back to `lob_data.get_mid()` when the VAMP price is invalid, and
`none` when the fallback is invalid as well. -/
noncomputable def quote_reference (lob_data : SimpleLOB) (reference_notional : ℝ) : Option ℝ :=
  match valid_price (lob_data.get_vamp reference_notional) with
  | some v => some v
  | none => valid_price lob_data.get_mid

/-- Step 4 of `compute_quotes`:
`skew_adjustment_bps = np.tanh(eth_value / reference_notional) * inventory_skew_bps`.
The float64 `np.tanh` is modelled by the exact real `tanh`; the two differ
in one relevant respect: float64 `np.tanh(x)` rounds to exactly `1.0` once
`x` exceeds roughly 19.5 (where `1 - tanh x` drops below the last-bit
rounding threshold), whereas the real `tanh` stays strictly below 1.  Only
properties shared by both semantics - in particular the non-strict bound
`|tanh| ≤ 1` - are claimed of this model. -/
noncomputable def skew_adjustment_bps
    (eth_value reference_notional inventory_skew_bps : ℝ) : ℝ :=
  Real.tanh (eth_value / reference_notional) * inventory_skew_bps

open Classical in
/-- Step 3 of `compute_quotes` ("Position-Based Order Management") plus the
zero-balance test override: the pair (max_buy_orders, max_sell_orders). -/
noncomputable def max_order_counts (current_position available_usdc available_eth_value
    reference_notional account_balance : ℝ) : ℕ × ℕ :=
  let base :=
    if (0.001 : ℝ) < current_position then ((0 : ℕ), (1 : ℕ))
    else if current_position < -(0.001 : ℝ) then
      (if reference_notional ≤ available_usdc then 1 else 0, 0)
    else
      (if reference_notional ≤ available_usdc then 1 else 0,
       if reference_notional ≤ available_eth_value then 1 else 0)
  if account_balance = 0 ∧ current_position = 0 then (1, 1) else base

/-- One entry of the `buy_orders` / `sell_orders` lists returned by
`compute_quotes`. -/
structure QuoteOrder where
  side : String
  price : ℝ
  size : ℝ
  notional : ℝ

/-- The dictionary returned by `compute_quotes` (the `inventory_analysis`
debug block is omitted; its fields are all recomputable from the inputs). -/
structure Quotes where
  buy_orders : List QuoteOrder
  sell_orders : List QuoteOrder
  vamp_price : ℝ

open Classical in
/-- Mirror of `VampMM.compute_quotes`.  The `for i in range(max_*_orders)` loops are
`List.replicate` (the `if max_*_orders > 0` guards in the source are
redundant with `range(0) = []`). -/
noncomputable def compute_quotes (lob_data : SimpleLOB)
    (current_position account_balance : ℝ)
    (order_value base_spread_bps inventory_skew_bps : ℝ) : Option Quotes :=
  if lob_data.is_empty then none
  else
    match quote_reference lob_data order_value with
    | none => none
    | some vamp_price =>
      let reference_notional := order_value
      let eth_value := current_position * vamp_price
      let available_usdc := account_balance - max 0 eth_value
      let available_eth_value := max 0 (current_position * vamp_price)
      let counts := max_order_counts current_position available_usdc available_eth_value
        reference_notional account_balance
      let skew := skew_adjustment_bps eth_value reference_notional inventory_skew_bps
      let adjusted_mid_price := vamp_price * (1 - skew / 10000)
      let half_spread := vamp_price * (base_spread_bps / 10000 / 2)
      let bid_price := roundTo 2 (adjusted_mid_price - half_spread)
      let ask_price := roundTo 2 (adjusted_mid_price + half_spread)
      let buy_orders := List.replicate counts.1
        (⟨"BUY", bid_price, roundTo 4 (reference_notional / bid_price), reference_notional⟩ : QuoteOrder)
      let sell_orders := List.replicate counts.2
        (⟨"SELL", ask_price, roundTo 4 (reference_notional / ask_price), reference_notional⟩ : QuoteOrder)
      some ⟨buy_orders, sell_orders, vamp_price⟩

/-! ### C10: the volume-adjusted reference price is the mid price -/

/-- C10: for every order book and every target notional, `get_vamp`
returns exactly the value of `get_mid`; the reference price never depends
on the target-notional argument. -/
theorem get_vamp_eq_get_mid (l : SimpleLOB) (n : ℝ) : l.get_vamp n = l.get_mid := by
  unfold SimpleLOB.get_vamp SimpleLOB.get_mid
  by_cases h : l.is_empty = true <;> simp [h]

/-! ### C8: the polling fallback's position delta -/

/-- C8: in poll mode, an order id that was tracked but is absent from the
fetched set is detected as filled, but the recorded position delta is the
hard-coded `0.01` of the source - independent of the disappeared order's
remaining unfilled size (which is not even an input of `_poll_for_fills`). -/
theorem poll_fill_delta_constant (pos : ℚ) :
    (poll_for_fills ["A"] [] pos).1 = ["A"] ∧
    (poll_for_fills ["A"] [] pos).2.2 = pos + 1 / 100 := by
  constructor
  · rfl
  · show (if (["A"] : List String) ≠ [] then pos + 1 / 100 else pos) = pos + 1 / 100
    norm_num

/-! ### C1: at-most-once fill processing -/

/-- Helper case analysis for one `on_fill` invocation: either nothing is
emitted and the processed set is unchanged, or exactly the incoming message
is emitted, its order id was not yet processed, and it is added. -/
theorem ws_on_fill_cases (s : FillState) (m : FillMsg) :
    ((ws_on_fill s m).2 = [] ∧ (ws_on_fill s m).1.processed_fills = s.processed_fills) ∨
    (∃ oid, m.order_id = some oid ∧ oid ∉ s.processed_fills ∧
      (ws_on_fill s m).2 = [m] ∧
      (ws_on_fill s m).1.processed_fills = oid :: s.processed_fills) := by
  obtain ⟨moid, mside, mfilled, mprice⟩ := m
  cases moid with
  | none => exact Or.inl ⟨rfl, rfl⟩
  | some oid =>
    by_cases h1 : oid ≠ "" ∧ oid ∈ s.our_order_ids ∧ 0 < mfilled
    · by_cases h2 : oid ∈ s.processed_fills
      · exact Or.inl ⟨by simp [ws_on_fill, h1, h2], by simp [ws_on_fill, h1, h2]⟩
      · exact Or.inr ⟨oid, rfl, h2,
          by simp [ws_on_fill, h1, h2], by simp [ws_on_fill, h1, h2]⟩
    · exact Or.inl ⟨by simp [ws_on_fill, h1], by simp [ws_on_fill, h1]⟩

/-- Once an order id is in the processed set, the rest of the stream emits
no event for it. -/
theorem ws_run_count_zero (oid : String) (incr : ℚ) (msgs : List FillMsg) :
    ∀ s : FillState, oid ∈ s.processed_fills →
      ((ws_run s msgs).2.countP (matches_fill oid incr)) = 0 := by
  induction msgs with
  | nil => intro s _; simp [ws_run]
  | cons m ms ih =>
    intro s h
    have hrun : (ws_run s (m :: ms)).2
        = (ws_on_fill s m).2 ++ (ws_run (ws_on_fill s m).1 ms).2 := rfl
    rw [hrun, List.countP_append]
    rcases ws_on_fill_cases s m with ⟨he, hp⟩ | ⟨oid', hm, hnp, he, hp⟩
    · rw [he, List.countP_nil, ih (ws_on_fill s m).1 (hp ▸ h)]
    · have hne : ¬ matches_fill oid incr m = true := by
        intro hc
        have hc' : m.order_id = some oid ∧ m.filled = incr := by
          simpa [matches_fill] using hc
        rw [hm] at hc'
        obtain rfl := Option.some.inj hc'.1
        exact hnp h
      rw [he]
      have h1 : List.countP (matches_fill oid incr) [m] = 0 := by
        simp [List.countP_cons, hne]
      rw [h1, ih (ws_on_fill s m).1 (by rw [hp]; exact List.mem_cons_of_mem _ h)]

/-- C1: over any delivery sequence (including redeliveries of the same
message) the fill handler processes at most one fill event - and hence
triggers at most one hedge - per (orderId, fill increment) pair. -/
theorem fill_event_at_most_once (s : FillState) (msgs : List FillMsg)
    (oid : String) (incr : ℚ) :
    ((ws_run s msgs).2.countP (matches_fill oid incr)) ≤ 1 := by
  induction msgs generalizing s with
  | nil => simp [ws_run]
  | cons m ms ih =>
    have hrun : (ws_run s (m :: ms)).2
        = (ws_on_fill s m).2 ++ (ws_run (ws_on_fill s m).1 ms).2 := rfl
    rw [hrun, List.countP_append]
    rcases ws_on_fill_cases s m with ⟨he, _⟩ | ⟨oid', hm, hnp, he, hp⟩
    · rw [he, List.countP_nil]
      simpa using ih (ws_on_fill s m).1
    · rw [he]
      by_cases hmt : matches_fill oid incr m = true
      · have hoid : oid' = oid := by
          have hc' : m.order_id = some oid ∧ m.filled = incr := by
            simpa [matches_fill] using hmt
          rw [hm] at hc'
          exact Option.some.inj hc'.1
        have hz : ((ws_run (ws_on_fill s m).1 ms).2.countP (matches_fill oid incr)) = 0 := by
          apply ws_run_count_zero
          rw [hp, hoid]
          exact List.mem_cons_self _ _
        have h1 : List.countP (matches_fill oid incr) [m] = 1 := by
          simp [List.countP_cons, hmt]
        rw [h1, hz]
      · have h1 : List.countP (matches_fill oid incr) [m] = 0 := by
          simp [List.countP_cons, hmt]
        rw [h1]
        simpa using ih (ws_on_fill s m).1

/-! ### C5: the tanh-saturated inventory skew is bounded -/

/-- The hyperbolic tangent lies strictly inside (-1, 1). -/
theorem abs_tanh_lt_one (x : ℝ) : |Real.tanh x| < 1 := by
  rw [Real.tanh_eq_sinh_div_cosh, abs_div, abs_of_pos (Real.cosh_pos x),
    div_lt_one (Real.cosh_pos x), abs_lt]
  constructor
  · have h1 := Real.sinh_add_cosh x
    have h2 := Real.exp_pos x
    linarith
  · exact Real.sinh_lt_cosh x

/-- C5 counterexample: at `inventory_skew_bps = 0` (which the claim admits,
demanding only `≥ 0`) the skew adjustment equals the bound instead of lying
strictly below it: `|skew| < 0` is false. -/
theorem skew_bound_counterexample :
    ¬ |skew_adjustment_bps (1 * 100) 100 0| < 0 := by
  simp [skew_adjustment_bps]

/-- C5 amended: for every inventory value, reference notional and every
`inventory_skew_bps ≥ 0`, the computed skew adjustment is bounded by
`inventory_skew_bps` in magnitude - non-strictly.  The bound is attained
in the program: at `inventory_skew_bps = 0` (the counterexample), and at
large inventory ratios, where float64 `np.tanh` returns exactly `1.0`
(ratios above roughly 19.5), so the skew equals `inventory_skew_bps`
there.  The strict form of the bound is therefore false in the code for
all of its semantics; this non-strict bound is what both the exact-real
model and the float implementation satisfy. -/
theorem skew_le_bound (eth_value reference_notional inventory_skew_bps : ℝ)
    (h : 0 ≤ inventory_skew_bps) :
    |skew_adjustment_bps eth_value reference_notional inventory_skew_bps|
      ≤ inventory_skew_bps := by
  unfold skew_adjustment_bps
  rw [abs_mul, abs_of_nonneg h]
  calc |Real.tanh (eth_value / reference_notional)| * inventory_skew_bps
      ≤ 1 * inventory_skew_bps :=
        mul_le_mul_of_nonneg_right (le_of_lt (abs_tanh_lt_one _)) h
    _ = inventory_skew_bps := one_mul _

/-- Witness for `skew_le_bound` at a concrete input. -/
theorem skew_le_bound_witness :
    (0 : ℝ) ≤ 1 ∧ |skew_adjustment_bps 0 1 1| ≤ 1 :=
  ⟨by norm_num, skew_le_bound 0 1 1 (by norm_num)⟩

/-! ### C3: hedge rate limiting -/

/-- Count of hedge-venue submissions recorded in an `on_paradex_fill`
result. -/
def submissionCount (o : Option HedgeOrder) : ℕ :=
  o.elim 0 (fun _ => 1)

theorem submissionCount_le_one (o : Option HedgeOrder) : submissionCount o ≤ 1 := by
  cases o <;> simp [submissionCount]

/-- A call arriving inside the rate-limit window returns the `rate_limited`
dictionary, leaves the state untouched and submits nothing. -/
theorem on_paradex_fill_rateLimited (place : HedgeOrder → Except Unit VenueResult)
    (s : HedgerState) (now : ℚ) (market side : String) (size : ℚ)
    (price : Option ℚ) (cid : Option String)
    (h : now - s.last_hedge_time < s.min_hedge_interval) :
    on_paradex_fill place s now market side size price cid
      = (s, Except.ok OnFillResult.rateLimited, none) := by
  unfold on_paradex_fill
  rw [if_pos h]

/-- Either a call submits nothing and leaves the hedger state untouched, or
it advances the rate-limit timestamp to the call time (and changes nothing
else). -/
theorem on_paradex_fill_state_cases (place : HedgeOrder → Except Unit VenueResult)
    (s : HedgerState) (now : ℚ) (market side : String) (size : ℚ)
    (price : Option ℚ) (cid : Option String) :
    ((on_paradex_fill place s now market side size price cid).2.2 = none ∧
      (on_paradex_fill place s now market side size price cid).1 = s) ∨
    (on_paradex_fill place s now market side size price cid).1
      = { s with last_hedge_time := now } := by
  unfold on_paradex_fill
  repeat' first
  | exact Or.inl ⟨rfl, rfl⟩
  | exact Or.inr rfl
  | split
  | dsimp only

/-- C3: for two consecutive calls to the hedge coordinator whose times lie
closer together than the configured minimum inter-hedge interval, at most
one order is submitted to the hedge venue, and if the first call submitted
then the second returns the explicit `rate_limited` result and submits
nothing. -/
theorem hedge_rate_limit_pair (place : HedgeOrder → Except Unit VenueResult)
    (s0 : HedgerState) (t1 t2 : ℚ)
    (mk1 side1 : String) (sz1 : ℚ) (p1 : Option ℚ) (cid1 : Option String)
    (mk2 side2 : String) (sz2 : ℚ) (p2 : Option ℚ) (cid2 : Option String)
    (h : t2 - t1 < s0.min_hedge_interval) :
    let r1 := on_paradex_fill place s0 t1 mk1 side1 sz1 p1 cid1
    let r2 := on_paradex_fill place r1.1 t2 mk2 side2 sz2 p2 cid2
    (submissionCount r1.2.2 + submissionCount r2.2.2 ≤ 1) ∧
    (r1.2.2 = none ∨
      r2.2 = (Except.ok OnFillResult.rateLimited, (none : Option HedgeOrder))) := by
  intro r1 r2
  by_cases hs : r1.2.2 = none
  · constructor
    · have : submissionCount r1.2.2 = 0 := by rw [hs]; rfl
      rw [this]
      simpa using submissionCount_le_one r2.2.2
    · exact Or.inl hs
  · have hst : r1.1 = { s0 with last_hedge_time := t1 } := by
      rcases on_paradex_fill_state_cases place s0 t1 mk1 side1 sz1 p1 cid1 with ⟨hn, _⟩ | hst
      · exact absurd hn hs
      · exact hst
    have hrl : r2 = (r1.1, Except.ok OnFillResult.rateLimited, none) := by
      apply on_paradex_fill_rateLimited
      rw [hst]
      exact h
    constructor
    · have h2 : submissionCount r2.2.2 = 0 := by rw [hrl]; rfl
      have h1 := submissionCount_le_one r1.2.2
      omega
    · refine Or.inr ?_
      rw [hrl]

/-- Concrete venue stub that accepts every hedge order. -/
def venueOk : HedgeOrder → Except Unit VenueResult :=
  fun _ => Except.ok ⟨"accepted"⟩

/-- Concrete venue stub that returns the `status: "error"` dictionary the
hedge backends produce when the exchange call fails internally. -/
def venueError : HedgeOrder → Except Unit VenueResult :=
  fun _ => Except.ok ⟨"error"⟩

/-- Concrete venue stub whose call raises. -/
def venueRaise : HedgeOrder → Except Unit VenueResult :=
  fun _ => Except.error ()

/-- A concrete hedger state: ETH symbol mapping, market-order mode, last
hedge at time 0, the hard-coded 1-second minimum interval. -/
def hedgerC : HedgerState :=
  ⟨[("ETH-USD-PERP", "ETH")], "market", 10, 0, 1⟩

/-- Witness for `hedge_rate_limit_pair`: two calls at times 5 and 5.5 with
the first one submitting. -/
theorem hedge_rate_limit_pair_witness :
    ((11 : ℚ) / 2 - 5 < hedgerC.min_hedge_interval) ∧
    ((submissionCount (on_paradex_fill venueOk hedgerC 5 "ETH-USD-PERP" "BUY" 1 none none).2.2
        + submissionCount (on_paradex_fill venueOk
            (on_paradex_fill venueOk hedgerC 5 "ETH-USD-PERP" "BUY" 1 none none).1
            (11 / 2) "ETH-USD-PERP" "SELL" 2 none none).2.2 ≤ 1) ∧
      ((on_paradex_fill venueOk hedgerC 5 "ETH-USD-PERP" "BUY" 1 none none).2.2 = none ∨
        (on_paradex_fill venueOk
            (on_paradex_fill venueOk hedgerC 5 "ETH-USD-PERP" "BUY" 1 none none).1
            (11 / 2) "ETH-USD-PERP" "SELL" 2 none none).2
          = (Except.ok OnFillResult.rateLimited, (none : Option HedgeOrder)))) :=
  ⟨by norm_num [hedgerC],
    hedge_rate_limit_pair venueOk hedgerC 5 (11 / 2) "ETH-USD-PERP" "BUY" 1 none none
      "ETH-USD-PERP" "SELL" 2 none none (by norm_num [hedgerC])⟩

/-! ### C4: bookkeeping on failed hedge submissions -/

/-- Projection extracting the venue `status` string from a hedge attempt's
outcome, when the hedger call returned a venue dictionary. -/
def attempt_status : Option (Except Unit OnFillResult) → Option String
  | some (Except.ok (OnFillResult.venue r)) => some r.status
  | _ => none

/-- Projection testing whether the hedge attempt's hedger call raised. -/
def attempt_raised : Option (Except Unit OnFillResult) → Bool
  | some (Except.error _) => true
  | _ => false

/-- C4 counterexample: a hedge attempt whose venue call returns the
`status: "error"` dictionary still updates the local hedge-venue position
bookkeeping (from 0 to -1), because `_hedge_net_position` never inspects
the returned status. -/
theorem hedge_error_status_counterexample :
    attempt_status (hedge_net_position venueError hedgerC ⟨1, 0⟩ 5 "ETH-USD-PERP").2.2.1
      = some ("error") ∧
    (hedge_net_position venueError hedgerC ⟨1, 0⟩ 5 "ETH-USD-PERP").2.1.hyperliquid_position
      = -1 ∧
    (-1 : ℚ) ≠ 0 := by
  refine ⟨?_, ?_, by norm_num⟩
  · simp [hedge_net_position, on_paradex_fill, hedgerC, pyUpper, venueError, attempt_status,
      hedge_client_id, pyInt]
    norm_num [attempt_status]
  · simp [hedge_net_position, on_paradex_fill, hedgerC, pyUpper, venueError,
      hedge_client_id, pyInt]
    norm_num

/-- Either the hedger call did not raise (so no exception reached the
`except` block), or the trader's position bookkeeping is unchanged. -/
theorem hedge_net_position_raise_cases (place : HedgeOrder → Except Unit VenueResult)
    (hs : HedgerState) (t : PosState) (now : ℚ) (market : String) :
    attempt_raised (hedge_net_position place hs t now market).2.2.1 = false ∨
    (hedge_net_position place hs t now market).2.1 = t := by
  unfold hedge_net_position
  repeat' first
  | exact Or.inl rfl
  | exact Or.inr rfl
  | split
  | dsimp only

/-- C4 amended: the local hedge-venue position bookkeeping is left
unchanged by a hedge attempt exactly when the hedger call raises; when the
call returns a dictionary - even one whose status is an error, or the
rate-limited skip - the bookkeeping is updated by the attempted side and
size regardless. -/
theorem hedge_raise_leaves_position (place : HedgeOrder → Except Unit VenueResult)
    (hs : HedgerState) (t : PosState) (now : ℚ) (market : String)
    (h : attempt_raised (hedge_net_position place hs t now market).2.2.1 = true) :
    (hedge_net_position place hs t now market).2.1 = t := by
  rcases hedge_net_position_raise_cases place hs t now market with hf | ht
  · rw [h] at hf
    exact absurd hf (by simp)
  · exact ht

/-- Witness for `hedge_raise_leaves_position`: a concrete raising venue. -/
theorem hedge_raise_leaves_position_witness :
    attempt_raised (hedge_net_position venueRaise hedgerC ⟨1, 0⟩ 5 "ETH-USD-PERP").2.2.1
      = true ∧
    (hedge_net_position venueRaise hedgerC ⟨1, 0⟩ 5 "ETH-USD-PERP").2.1 = ⟨1, 0⟩ := by
  have h : attempt_raised
      (hedge_net_position venueRaise hedgerC ⟨1, 0⟩ 5 "ETH-USD-PERP").2.2.1 = true := by
    simp [hedge_net_position, on_paradex_fill, hedgerC, pyUpper, venueRaise, attempt_raised,
      hedge_client_id, pyInt]
    norm_num [attempt_raised]
  exact ⟨h, hedge_raise_leaves_position venueRaise hedgerC ⟨1, 0⟩ 5 "ETH-USD-PERP" h⟩

/-! ### C9: hedge client ids are derived from the clock, not the fill -/

/-- C9 counterexample: the identical fill situation (same Paradex position
resulting from the same fill) hedged at two different wall-clock times
produces hedge requests with different client ids - the id is not a
function of the fill's identity. -/
theorem hedge_client_id_counterexample :
    (hedge_net_position venueOk hedgerC ⟨1, 0⟩ 5 "ETH-USD-PERP").2.2.2
      = some ⟨"SELL", 1, "ETH", none, "IOC", some ("hedge_net_5")⟩ ∧
    (hedge_net_position venueOk hedgerC ⟨1, 0⟩ 10 "ETH-USD-PERP").2.2.2
      = some ⟨"SELL", 1, "ETH", none, "IOC", some ("hedge_net_10")⟩ ∧
    (some ("hedge_net_5") : Option String) ≠ some ("hedge_net_10") := by
  have ht5 : toString (5 : ℤ) = "5" := by decide
  have ht10 : toString (10 : ℤ) = "10" := by decide
  refine ⟨?_, ?_, by decide⟩
  · simp [hedge_net_position, on_paradex_fill, hedgerC, pyUpper, venueOk,
      hedge_client_id, pyInt, ht5]
    norm_num [ht5]
  · simp [hedge_net_position, on_paradex_fill, hedgerC, pyUpper, venueOk,
      hedge_client_id, pyInt, ht10]
    norm_num [ht10]

/-- The hedge order handed to the venue carries exactly the client id that
was passed into `on_paradex_fill`. -/
theorem on_paradex_fill_client_id (place : HedgeOrder → Except Unit VenueResult)
    (s : HedgerState) (now : ℚ) (market side : String) (size : ℚ)
    (price : Option ℚ) (cid : Option String) :
    ((on_paradex_fill place s now market side size price cid).2.2).elim True
      (fun o => o.client_id = cid) := by
  unfold on_paradex_fill
  repeat' first
  | trivial
  | split
  | dsimp only

/-- Transport of `on_paradex_fill_client_id` along an equation naming the
call's result. -/
theorem elim_client_of_eq {place : HedgeOrder → Except Unit VenueResult}
    {s : HedgerState} {now : ℚ} {market side : String} {size : ℚ}
    {price : Option ℚ} {cid : Option String}
    {res : HedgerState × Except Unit OnFillResult × Option HedgeOrder}
    (h : on_paradex_fill place s now market side size price cid = res) :
    res.2.2.elim True (fun o => o.client_id = cid) := by
  rw [← h]
  exact on_paradex_fill_client_id place s now market side size price cid

/-- C9 amended: every hedge request submitted by `_hedge_net_position`
carries the client id `hedge_net_<int(now)>` - a deterministic function of
the submission wall-clock second alone; submissions for the same fill at
different seconds therefore carry different ids. -/
theorem hedge_client_id_time_derived (place : HedgeOrder → Except Unit VenueResult)
    (hs : HedgerState) (t : PosState) (now : ℚ) (market : String) :
    ((hedge_net_position place hs t now market).2.2.2).elim True
      (fun o => o.client_id = some (hedge_client_id now)) := by
  unfold hedge_net_position
  dsimp only
  split
  · trivial
  · split
    · trivial
    · split
      next hs' r sub heq => simpa using elim_client_of_eq heq
      next hs' e sub heq => simpa using elim_client_of_eq heq

/-! ### C6: reconciliation keeps unmatched live orders -/

/-- A one-second-old live BUY order at price 90 - matching no desired
order. -/
def liveC6 : LiveOrderRec :=
  ⟨"o1", "BUY", 90, 1, some 999000, none⟩

/-- A desired BUY order at price 100.4; it matches `liveC6` in neither
price nor, a fortiori, the (price, size) pair. -/
def desiredC6 : List DesiredOrder :=
  [⟨"BUY", 502 / 5, 1⟩]

/-- C6 counterexample: a fresh live order whose price matches no desired
order is neither cancelled (cancel list empty) nor replaced (nothing
placed, because a live order of its side exists) - the pass keeps it. -/
theorem reconcile_unmatched_kept_counterexample :
    update_quotes_dynamic [liveC6] 1000 desiredC6 [] = ([], []) ∧
    (∀ d ∈ desiredC6, ¬ (d.price = liveC6.price ∧ d.size = liveC6.size)) := by
  constructor
  · simp [update_quotes_dynamic, is_stale, order_time, liveC6, desiredC6]
    norm_num
  · intro d hd
    simp [desiredC6] at hd
    subst hd
    simp [liveC6]
    norm_num

/-- C6 amended: the pass cancels a live order precisely by the age test of
the source - its parsed timestamp is truthy (nonzero; a timestamp of 0 is
falsy in Python and such an order is never cancelled) and older than 60
seconds - and the cancellation decision is independent of the desired
orders; younger, epoch-zero or undated orders are kept regardless of
side/price/size matching (shown concretely by the counterexample). -/
theorem stale_orders_cancelled (existing : List LiveOrderRec) (now : ℚ)
    (buys sells : List DesiredOrder) (o : LiveOrderRec)
    (h1 : o ∈ existing) (h2 : is_stale now o = true) :
    o.id ∈ (update_quotes_dynamic existing now buys sells).1 ∧
    (update_quotes_dynamic existing now buys sells).1
      = (update_quotes_dynamic existing now [] []).1 := by
  constructor
  · exact List.mem_map_of_mem _ (List.mem_filter.2 ⟨h1, h2⟩)
  · rfl

/-- A live order created at millisecond 1000 (so its parsed time, 1 second,
is truthy) observed 999 seconds later, used as the stale witness. -/
def staleC6 : LiveOrderRec :=
  ⟨"o2", "SELL", 100, 1, some 1000, none⟩

/-- Witness for `stale_orders_cancelled` at a concrete stale order. -/
theorem stale_orders_cancelled_witness :
    staleC6 ∈ [staleC6] ∧ is_stale 1000 staleC6 = true ∧
    (staleC6.id ∈ (update_quotes_dynamic [staleC6] 1000 [] []).1 ∧
      (update_quotes_dynamic [staleC6] 1000 [] []).1
        = (update_quotes_dynamic [staleC6] 1000 [] []).1) := by
  have h2 : is_stale 1000 staleC6 = true := by
    simp [is_stale, order_time, staleC6]
    norm_num
  have h1 : staleC6 ∈ [staleC6] := List.mem_singleton_self _
  exact ⟨h1, h2, stale_orders_cancelled [staleC6] 1000 [] [] staleC6 h1 h2⟩

/-! ### Rounding lemmas for the quote engine -/

theorem fract_half_eq {x : ℝ} (h : Int.fract x = 1 / 2) : x = (⌊x⌋ : ℝ) + 1 / 2 := by
  have hf := Int.floor_add_fract x
  rw [h] at hf
  linarith

theorem pyRound_mono {x y : ℝ} (hxy : x ≤ y) : pyRound x ≤ pyRound y := by
  rcases eq_or_lt_of_le hxy with rfl | hlt
  · exact le_refl _
  unfold pyRound
  by_cases hx : Int.fract x = 1 / 2 <;> by_cases hy : Int.fract y = 1 / 2
  · have hxe := fract_half_eq hx
    have hye := fract_half_eq hy
    have hfl : ⌊x⌋ < ⌊y⌋ := by
      have : (⌊x⌋ : ℝ) < (⌊y⌋ : ℝ) := by linarith
      exact_mod_cast this
    rw [if_pos hx, if_pos hy]
    have h1 : (if Even ⌊x⌋ then ⌊x⌋ else ⌊x⌋ + 1) ≤ ⌊x⌋ + 1 := by split <;> omega
    have h2 : ⌊y⌋ ≤ (if Even ⌊y⌋ then ⌊y⌋ else ⌊y⌋ + 1) := by split <;> omega
    omega
  · have hxe := fract_half_eq hx
    rw [if_pos hx, if_neg hy]
    have h2 : ⌊x⌋ + 1 ≤ ⌊y + 1 / 2⌋ := by
      apply Int.le_floor.2
      push_cast
      linarith
    have h1 : (if Even ⌊x⌋ then ⌊x⌋ else ⌊x⌋ + 1) ≤ ⌊x⌋ + 1 := by split <;> omega
    omega
  · have hye := fract_half_eq hy
    rw [if_neg hx, if_pos hy]
    have h1 : ⌊x + 1 / 2⌋ < ⌊y⌋ + 1 := by
      apply Int.floor_lt.2
      push_cast
      linarith
    have h2 : ⌊y⌋ ≤ (if Even ⌊y⌋ then ⌊y⌋ else ⌊y⌋ + 1) := by split <;> omega
    omega
  · rw [if_neg hx, if_neg hy]
    exact Int.floor_mono (by linarith)

theorem roundTo_mono (d : ℕ) {x y : ℝ} (h : x ≤ y) : roundTo d x ≤ roundTo d y := by
  unfold roundTo
  have hp : (0 : ℝ) < 10 ^ d := by positivity
  have hm : pyRound (x * 10 ^ d) ≤ pyRound (y * 10 ^ d) :=
    pyRound_mono (mul_le_mul_of_nonneg_right h (le_of_lt hp))
  exact (div_le_div_iff_of_pos_right hp).2 (Int.cast_le.2 hm)

theorem pyRound_eq_of_lt_half {x : ℝ} {n : ℤ} (h1 : (n : ℝ) ≤ x) (h2 : x < n + 1 / 2) :
    pyRound x = n := by
  have hfl : ⌊x⌋ = n := Int.floor_eq_iff.2 ⟨h1, by linarith⟩
  have hfr : Int.fract x ≠ 1 / 2 := by
    intro hc
    have := fract_half_eq hc
    rw [hfl] at this
    linarith
  unfold pyRound
  rw [if_neg hfr]
  exact Int.floor_eq_iff.2 ⟨by linarith, by linarith⟩

theorem pyRound_eq_of_half_lt {x : ℝ} {n : ℤ} (h1 : (n : ℝ) + 1 / 2 < x) (h2 : x < n + 1) :
    pyRound x = n + 1 := by
  have hfl : ⌊x⌋ = n := Int.floor_eq_iff.2 ⟨by linarith, by linarith⟩
  have hfr : Int.fract x ≠ 1 / 2 := by
    intro hc
    have := fract_half_eq hc
    rw [hfl] at this
    linarith
  unfold pyRound
  rw [if_neg hfr]
  exact Int.floor_eq_iff.2 ⟨by push_cast; linarith, by push_cast; linarith⟩

theorem roundTo_eq (d : ℕ) (x : ℝ) (n : ℤ) (h : pyRound (x * 10 ^ d) = n) :
    roundTo d x = (n : ℝ) / 10 ^ d := by
  unfold roundTo
  rw [h]

/-! ### Reference-price validity lemmas -/

theorem valid_price_pos {o : Option ℝ} {v : ℝ} (h : valid_price o = some v) : 0 < v := by
  cases o with
  | none => simp [valid_price] at h
  | some w =>
    by_cases hw : w ≤ 0
    · simp [valid_price, hw] at h
    · have : w = v := by simpa [valid_price, hw] using h
      rw [← this]
      exact lt_of_not_le hw

theorem quote_reference_pos {lob : SimpleLOB} {rn v : ℝ}
    (h : quote_reference lob rn = some v) : 0 < v := by
  unfold quote_reference at h
  cases hv : valid_price (lob.get_vamp rn) with
  | some w =>
    rw [hv] at h
    simp only [Option.some.injEq] at h
    exact h ▸ valid_price_pos hv
  | none =>
    rw [hv] at h
    exact valid_price_pos h

/-! ### C2: bid versus ask -/

/-- C2 amended: whenever `base_spread_bps` is nonnegative and quotes are
returned, every buy price is less than or equal to every sell price.
Equality is possible (the spread can round away, see the counterexample),
and no anti-crossing clamp against the book's best bid/ask exists in the
code. -/
theorem quotes_bid_le_ask (lob_data : SimpleLOB)
    (current_position account_balance order_value base_spread_bps inventory_skew_bps : ℝ)
    (h : 0 ≤ base_spread_bps) :
    (compute_quotes lob_data current_position account_balance order_value
        base_spread_bps inventory_skew_bps).elim True
      (fun q => ∀ b ∈ q.buy_orders, ∀ s ∈ q.sell_orders, b.price ≤ s.price) := by
  unfold compute_quotes
  split
  · trivial
  · cases hq : quote_reference lob_data order_value with
    | none => trivial
    | some vamp =>
      dsimp only
      intro b hb s hs
      have hb' := List.eq_of_mem_replicate hb
      have hs' := List.eq_of_mem_replicate hs
      subst hb'
      subst hs'
      apply roundTo_mono
      have hv : 0 < vamp := quote_reference_pos hq
      have hhalf : 0 ≤ vamp * (base_spread_bps / 10000 / 2) :=
        mul_nonneg (le_of_lt hv) (by linarith)
      linarith

/-- The order book of the spec's end-to-end scenarios:
bids `[[100, 2]]`, asks `[[101, 2]]`. -/
def lobC2 : SimpleLOB :=
  ⟨[(100, 2)], [(101, 2)]⟩

/-- Witness for `quotes_bid_le_ask` at the scenario book with zero spread. -/
theorem quotes_bid_le_ask_witness :
    (0 : ℝ) ≤ 0 ∧
    (compute_quotes lobC2 0 0 100 0 50).elim True
      (fun q => ∀ b ∈ q.buy_orders, ∀ s ∈ q.sell_orders, b.price ≤ s.price) :=
  ⟨le_refl 0, quotes_bid_le_ask lobC2 0 0 100 0 50 (le_refl 0)⟩

theorem lobC2_is_empty : lobC2.is_empty = false := by
  simp [lobC2, SimpleLOB.is_empty]

theorem lobC2_mid : lobC2.get_mid = some (201 / 2) := by
  simp [SimpleLOB.get_mid, lobC2, SimpleLOB.is_empty, SimpleLOB.best_bid, SimpleLOB.best_ask]
  norm_num

theorem quote_reference_lobC2 (rn : ℝ) : quote_reference lobC2 rn = some (201 / 2) := by
  simp [quote_reference, SimpleLOB.get_vamp, lobC2_is_empty, lobC2_mid, valid_price]
  norm_num

/-- Fully unfolded shape of `compute_quotes` on a non-empty book with a
valid reference price. -/
theorem compute_quotes_eq (lob : SimpleLOB) (pos bal ov bps isk vamp : ℝ)
    (he : lob.is_empty = false) (hq : quote_reference lob ov = some vamp) :
    compute_quotes lob pos bal ov bps isk =
      some ⟨List.replicate
              (max_order_counts pos (bal - max 0 (pos * vamp)) (max 0 (pos * vamp)) ov bal).1
              ⟨"BUY",
               roundTo 2 (vamp * (1 - skew_adjustment_bps (pos * vamp) ov isk / 10000)
                 - vamp * (bps / 10000 / 2)),
               roundTo 4 (ov / roundTo 2 (vamp * (1 - skew_adjustment_bps (pos * vamp) ov isk / 10000)
                 - vamp * (bps / 10000 / 2))), ov⟩,
            List.replicate
              (max_order_counts pos (bal - max 0 (pos * vamp)) (max 0 (pos * vamp)) ov bal).2
              ⟨"SELL",
               roundTo 2 (vamp * (1 - skew_adjustment_bps (pos * vamp) ov isk / 10000)
                 + vamp * (bps / 10000 / 2)),
               roundTo 4 (ov / roundTo 2 (vamp * (1 - skew_adjustment_bps (pos * vamp) ov isk / 10000)
                 + vamp * (bps / 10000 / 2))), ov⟩,
            vamp⟩ := by
  unfold compute_quotes
  rw [hq]
  simp only [he, Bool.false_eq_true, if_false]

/-- Evaluation of `compute_quotes` on the scenario book at zero balance and
zero position with zero spread: both sides are emitted (the zero-balance
test branch) at the identical price 100.5. -/
theorem compute_quotes_zero_balance_eval :
    compute_quotes lobC2 0 0 100 0 50 =
      some ⟨[⟨"BUY", 201 / 2, 199 / 200, 100⟩],
            [⟨"SELL", 201 / 2, 199 / 200, 100⟩], 201 / 2⟩ := by
  rw [compute_quotes_eq lobC2 0 0 100 0 50 (201 / 2) lobC2_is_empty (quote_reference_lobC2 100)]
  have hsk : skew_adjustment_bps ((0 : ℝ) * (201 / 2)) 100 50 = 0 := by
    simp [skew_adjustment_bps]
  have hcnt : max_order_counts 0 ((0 : ℝ) - max 0 (0 * (201 / 2)))
      (max 0 ((0 : ℝ) * (201 / 2))) 100 0 = (1, 1) := by
    unfold max_order_counts
    norm_num
  have hr2 : roundTo 2 (201 / 2 : ℝ) = 201 / 2 := by
    rw [roundTo_eq 2 _ 10050 (pyRound_eq_of_lt_half (by norm_num) (by norm_num))]
    norm_num
  have hr4 : roundTo 4 ((100 : ℝ) / (201 / 2)) = 199 / 200 := by
    rw [roundTo_eq 4 _ 9950 (pyRound_eq_of_lt_half (by norm_num) (by norm_num))]
    norm_num
  have harg1 : (201 / 2 : ℝ) * (1 - 0 / 10000) - 201 / 2 * (0 / 10000 / 2) = 201 / 2 := by
    norm_num
  have harg2 : (201 / 2 : ℝ) * (1 - 0 / 10000) + 201 / 2 * (0 / 10000 / 2) = 201 / 2 := by
    norm_num
  rw [hsk, hcnt, harg1, harg2, hr2, hr4]
  rfl

/-- C2 counterexample: on the scenario book with flat position, zero
balance and `base_spread_bps = 0`, both a buy and a sell order are
returned at the same price 100.5 - the strict inequality (and hence
non-crossing by a strict margin) claimed for all returned quotes fails. -/
theorem quotes_strict_cross_counterexample :
    ¬ ∀ q ∈ compute_quotes lobC2 0 0 100 0 50,
        ∀ b ∈ q.buy_orders, ∀ s ∈ q.sell_orders, b.price < s.price := by
  intro hall
  have hq : (⟨[⟨"BUY", 201 / 2, 199 / 200, 100⟩],
      [⟨"SELL", 201 / 2, 199 / 200, 100⟩], 201 / 2⟩ : Quotes)
      ∈ compute_quotes lobC2 0 0 100 0 50 := by
    rw [Option.mem_def, compute_quotes_zero_balance_eval]
  have hlt := hall _ hq _ (List.mem_singleton_self _) _ (List.mem_singleton_self _)
  exact lt_irrefl _ hlt

/-! ### C7: directional gating -/

/-- Evaluation of `compute_quotes` on the scenario book at flat position
with a real balance: only the buy side is emitted, because the sell side
requires `max(0, position * price) ≥ order_value`, which is 0 at flat
inventory. -/
theorem compute_quotes_flat_eval :
    compute_quotes lobC2 0 1000 100 20 50 =
      some ⟨[⟨"BUY", 502 / 5, 249 / 250, 100⟩], [], 201 / 2⟩ := by
  rw [compute_quotes_eq lobC2 0 1000 100 20 50 (201 / 2) lobC2_is_empty (quote_reference_lobC2 100)]
  have hsk : skew_adjustment_bps ((0 : ℝ) * (201 / 2)) 100 50 = 0 := by
    simp [skew_adjustment_bps]
  have hcnt : max_order_counts 0 ((1000 : ℝ) - max 0 (0 * (201 / 2)))
      (max 0 ((0 : ℝ) * (201 / 2))) 100 1000 = (1, 0) := by
    unfold max_order_counts
    norm_num
  have harg1 : (201 / 2 : ℝ) * (1 - 0 / 10000) - 201 / 2 * (20 / 10000 / 2) = 200799 / 2000 := by
    norm_num
  have hp2 : pyRound ((200799 : ℝ) / 2000 * 10 ^ 2) = 10040 := by
    have hh := pyRound_eq_of_half_lt (x := (200799 : ℝ) / 2000 * 10 ^ 2) (n := 10039)
      (by norm_num) (by norm_num)
    rw [hh]
    norm_num
  have hr2 : roundTo 2 ((200799 : ℝ) / 2000) = 502 / 5 := by
    rw [roundTo_eq 2 _ 10040 hp2]
    norm_num
  have hr4 : roundTo 4 ((100 : ℝ) / (502 / 5)) = 249 / 250 := by
    rw [roundTo_eq 4 _ 9960 (pyRound_eq_of_lt_half (by norm_num) (by norm_num))]
    norm_num
  rw [hsk, hcnt, harg1, hr2, hr4]
  rfl

/-- C7 counterexample: at flat inventory (position 0, within any dust
threshold) with a 1000-unit balance, the quote computation returns a buy
order but no sell order - not both sides, as claimed. -/
theorem flat_both_sides_counterexample :
    ¬ ∀ q ∈ compute_quotes lobC2 0 1000 100 20 50,
        q.buy_orders ≠ [] ∧ q.sell_orders ≠ [] := by
  intro hall
  have hq : (⟨[⟨"BUY", 502 / 5, 249 / 250, 100⟩], [], 201 / 2⟩ : Quotes)
      ∈ compute_quotes lobC2 0 1000 100 20 50 := by
    rw [Option.mem_def, compute_quotes_flat_eval]
  exact (hall _ hq).2 rfl

/-- C7 amended: when the position exceeds the 0.001 dust threshold, only
inventory-reducing orders are returned: a long position yields no buy
orders and a short position yields no sell orders.  At flat inventory both
sides are returned only when the respective funds checks pass; with a
nonzero balance and exactly zero position the sell side is dropped (see the
counterexample). -/
theorem directional_gating (lob_data : SimpleLOB) (pos bal ov bps isk : ℝ)
    (h : (0.001 : ℝ) < pos) :
    (compute_quotes lob_data pos bal ov bps isk).elim True (fun q => q.buy_orders = []) ∧
    (compute_quotes lob_data (-pos) bal ov bps isk).elim True (fun q => q.sell_orders = []) := by
  constructor
  · unfold compute_quotes
    split
    · trivial
    · cases hq : quote_reference lob_data ov with
      | none => trivial
      | some vamp =>
        dsimp only
        have hc : (max_order_counts pos (bal - max 0 (pos * vamp))
            (max 0 (pos * vamp)) ov bal).1 = 0 := by
          unfold max_order_counts
          dsimp only
          have hno : ¬ (bal = 0 ∧ pos = 0) := by
            rintro ⟨_, hp0⟩
            rw [hp0] at h
            norm_num at h
          rw [if_neg hno, if_pos h]
        rw [hc]
        simp
  · unfold compute_quotes
    split
    · trivial
    · cases hq : quote_reference lob_data ov with
      | none => trivial
      | some vamp =>
        dsimp only
        have hc : (max_order_counts (-pos) (bal - max 0 (-pos * vamp))
            (max 0 (-pos * vamp)) ov bal).2 = 0 := by
          unfold max_order_counts
          dsimp only
          have hno : ¬ (bal = 0 ∧ -pos = 0) := by
            rintro ⟨_, hp0⟩
            rw [neg_eq_zero] at hp0
            rw [hp0] at h
            norm_num at h
          have hn1 : ¬ ((0.001 : ℝ) < -pos) := by
            intro hcon
            have : (0.001 : ℝ) < 0 := by
              calc (0.001 : ℝ) < -pos := hcon
                _ < 0 := by linarith [lt_trans (by norm_num : (0 : ℝ) < 0.001) h]
            norm_num at this
          have hlt : -pos < -(0.001 : ℝ) := by linarith
          rw [if_neg hno, if_neg hn1, if_pos hlt]
        rw [hc]
        simp

/-- Witness for `directional_gating` at a concrete long position of 5. -/
theorem directional_gating_witness :
    (0.001 : ℝ) < 5 ∧
    ((compute_quotes lobC2 5 1000 100 20 50).elim True (fun q => q.buy_orders = []) ∧
      (compute_quotes lobC2 (-5) 1000 100 20 50).elim True (fun q => q.sell_orders = [])) :=
  ⟨by norm_num, directional_gating lobC2 5 1000 100 20 50 (by norm_num)⟩

end MMBot
